import Mathlib

/-!
# social-checker: a shallow embedding of `main.go`

The program asks a fixed list of websites whether a username is free: one HTTP
GET per site, a per-site rule on the response, and a fan-in loop that sorts the
sites into an available and an unavailable list or returns the first failure it
receives.

Modelling conventions.

* A Go `string` is a Lean `String`, so the texts are valid UTF-8; a Go `int` is
  an `Int` (the program only compares status codes, no arithmetic is done on
  them).
* A Go `error` is `Option GoError`, `none` being `nil`.  A Go slice is
  `Option (List α)`, `none` being the `nil` slice.
* A Go function returning `(bool, error)` returns a pair `Bool × error`.
* The network is a parameter: each goroutine of `availableWebsites` makes one
  request of its own, and `net i` is the answer `client.Do` gives to the
  goroutine started for entry `i` of the site list.  Two goroutines asking for
  the same URL may get different answers.
* `http.NewRequest` parses the URL as `url.Parse` does: it rejects what
  `url.Parse` rejects, and the request carries the parsed URL, from which the
  request line is computed.  The texts of the errors of `net/url` and
  `net/http`, and the treatment of an authority that is not a plain host name
  with an optional port, are a parameter `Library`.
* The goroutines each send one result on an unbuffered channel.  The order in
  which the receive loop gets them is the parameter `order`: the entries of
  the site list, each with its index, in the order their goroutines complete.
  A receive on a channel nobody will send on any more blocks for ever; this is
  the result `none`.
-/

namespace SocialChecker

/-! ## Errors (`github.com/pkg/errors`) -/

/-- A non-nil Go error: a root cause carrying a message, or an error wrapped
with a context message by `errors.Wrap`. -/
inductive GoError where
  | root (msg : String)
  | withMessage (cause : GoError) (msg : String)
deriving DecidableEq, Repr

/-- A Go value of type `error`; `none` is `nil`. -/
abbrev error := Option GoError

/-- The method `Error()`: the context messages from the outermost inwards, then
the root message, separated by `": "`. -/
def GoError.Error : GoError → String
  | .root msg => msg
  | .withMessage cause msg => msg ++ ": " ++ cause.Error

/-- The library function `errors.Wrap(err, message)`: `nil` stays `nil`, a
non-nil error gets the context `message`. -/
def errors.Wrap (err : error) (message : String) : error :=
  match err with
  | none => none
  | some e => some (GoError.withMessage e message)

/-! ## `fmt.Sprintf` on string operands -/

/-- The text `%!(EXTRA string=a, string=b)` that `Sprintf` appends for operands
no directive consumed; nothing when all were consumed. -/
def Sprintf.extra (a : List String) : List Char :=
  match a with
  | [] => []
  | _ :: _ =>
    "%!(EXTRA ".toList ++ (", ".intercalate (a.map (fun x => "string=" ++ x))).toList ++ [')']

/-- The output of one directive with verb `verb` on the string operand `x`:
`%s` and `%v` give the string itself, unchanged; `%T` gives the type name; any
other verb is reported as a bad verb. -/
def Sprintf.printArg (x : String) (verb : Char) : List Char :=
  if verb = 's' ∨ verb = 'v' then x.toList
  else if verb = 'T' then "string".toList
  else "%!".toList ++ [verb] ++ "(string=".toList ++ x.toList ++ [')']

/-- The scanning loop of `fmt.Sprintf` over the format, with the operands not
yet consumed.  Text up to the next `'%'` is copied; `%%` writes a percent sign
and consumes nothing; a directive without operand writes `%!v(MISSING)`; a
`'%'` ending the format writes `%!(NOVERB)`.

Directives with flags, width, precision or an argument index, and the verbs
`x`, `X` and `q`, are outside this model (the formats of this program use `%s`
only). -/
def Sprintf.doPrintf : List Char → List String → List Char
  | [], a => Sprintf.extra a
  | [c], a => if c = '%' then "%!(NOVERB)".toList ++ Sprintf.extra a else c :: Sprintf.extra a
  | c :: verb :: rest, a =>
    if c = '%' then
      if verb = '%' then '%' :: Sprintf.doPrintf rest a
      else
        match a with
        | [] => "%!".toList ++ [verb] ++ "(MISSING)".toList ++ Sprintf.doPrintf rest []
        | x :: a' => Sprintf.printArg x verb ++ Sprintf.doPrintf rest a'
    else c :: Sprintf.doPrintf (verb :: rest) a

/-- The library function `fmt.Sprintf(format, a...)` for string operands. -/
def Sprintf (format : String) (a : List String) : String :=
  String.mk (Sprintf.doPrintf format.toList a)

/-! ## Text helpers (`strings`) -/

/-- The library function `strings.Cut` for a one-character separator: the text
before the first `sep` and, when `sep` occurs, the text after it. -/
def strings.Cut (sep : Char) : List Char → List Char × Option (List Char)
  | [] => ([], none)
  | c :: s => if c = sep then ([], some s) else (c :: (strings.Cut sep s).1, (strings.Cut sep s).2)

/-- The text from the last `sep` on, `sep` included; `none` when `sep` does not
occur. -/
def strings.fromLast (sep : Char) : List Char → Option (List Char)
  | [] => none
  | c :: s =>
    match strings.fromLast sep s with
    | some t => some t
    | none => if c = sep then some (c :: s) else none

/-! ## URLs (`net/url`) -/

/-- The type `encoding` of `net/url`: the part of a URL a text belongs to. -/
inductive urlpkg.encoding where
  | encodePath
  | encodePathSegment
  | encodeHost
  | encodeZone
  | encodeUserPassword
  | encodeQueryComponent
  | encodeFragment
deriving DecidableEq, Repr

/-- An ASCII letter or digit. -/
def urlpkg.isAlnum (c : Char) : Bool :=
  ('a' ≤ c ∧ c ≤ 'z') ∨ ('A' ≤ c ∧ c ≤ 'Z') ∨ ('0' ≤ c ∧ c ≤ '9')

/-- The library function `shouldEscape`: whether the character must be written
as a percent escape in the given part of a URL.  A character outside ASCII is
made of bytes that all must be. -/
def urlpkg.shouldEscape (c : Char) (mode : urlpkg.encoding) : Bool :=
  if urlpkg.isAlnum c then false
  else if (mode = .encodeHost ∨ mode = .encodeZone) ∧
      c ∈ ['!', '$', '&', Char.ofNat 39, '(', ')', '*', '+', ',', ';', '=', ':', '[', ']', '<', '>', Char.ofNat 34]
    then false
  else if c ∈ ['-', '_', '.', '~'] then false
  else if c ∈ ['$', '&', '+', ',', '/', ':', ';', '=', '?', '@'] ∧
      mode ∈ [urlpkg.encoding.encodePath, .encodePathSegment, .encodeUserPassword,
        .encodeQueryComponent, .encodeFragment] then
    match mode with
    | .encodePath => c = '?'
    | .encodePathSegment => c = '/' ∨ c = ';' ∨ c = ',' ∨ c = '?'
    | .encodeUserPassword => c = '@' ∨ c = '/' ∨ c = '?' ∨ c = ':'
    | .encodeQueryComponent => true
    | _ => false
  else if mode = .encodeFragment ∧ c ∈ ['!', '(', ')', '*'] then false
  else true

/-- The library function `ishex`. -/
def urlpkg.ishex (c : Char) : Bool :=
  ('0' ≤ c ∧ c ≤ '9') ∨ ('a' ≤ c ∧ c ≤ 'f') ∨ ('A' ≤ c ∧ c ≤ 'F')

/-- The library function `unhex`. -/
def urlpkg.unhex (c : Char) : Nat :=
  if '0' ≤ c ∧ c ≤ '9' then c.toNat - '0'.toNat
  else if 'a' ≤ c ∧ c ≤ 'f' then c.toNat - 'a'.toNat + 10
  else if 'A' ≤ c ∧ c ≤ 'F' then c.toNat - 'A'.toNat + 10
  else 0

/-- Whether `unescape` accepts the text of a path, a query or a fragment: every
percent sign is followed by two hexadecimal digits. -/
def urlpkg.validEscapes : List Char → Bool
  | [] => true
  | c :: s =>
    if c = '%' then
      match s with
      | a :: b :: rest => urlpkg.ishex a && urlpkg.ishex b && urlpkg.validEscapes rest
      | _ => false
    else urlpkg.validEscapes s

/-- The library function `validEncoded`: whether the text can stand as it is
in the given part of a URL. -/
def urlpkg.validEncoded (s : List Char) (mode : urlpkg.encoding) : Bool :=
  s.all (fun c =>
    c ∈ ['!', '$', '&', Char.ofNat 39, '(', ')', '*', '+', ',', ';', '=', ':', '@', '[', ']', '%'] ||
      !urlpkg.shouldEscape c mode)

/-- The UTF-8 bytes of a character. -/
def urlpkg.utf8 (c : Char) : List Nat :=
  let n := c.toNat
  if n < 0x80 then [n]
  else if n < 0x800 then [0xC0 + n / 0x40, 0x80 + n % 0x40]
  else if n < 0x10000 then [0xE0 + n / 0x1000, 0x80 + n / 0x40 % 0x40, 0x80 + n % 0x40]
  else [0xF0 + n / 0x40000, 0x80 + n / 0x1000 % 0x40, 0x80 + n / 0x40 % 0x40, 0x80 + n % 0x40]

/-- The hexadecimal digit for a number below 16, in upper case. -/
def urlpkg.upperhex (n : Nat) : Char :=
  "0123456789ABCDEF".toList.getD n '0'

/-- The percent escape of a byte. -/
def urlpkg.escapeByte (b : Nat) : List Char :=
  ['%', urlpkg.upperhex (b / 16), urlpkg.upperhex (b % 16)]

/-- A byte as `escape` writes it in a path: itself when it needs no escape,
its percent escape otherwise. -/
def urlpkg.escapePathByte (b : Nat) : List Char :=
  if b < 0x80 ∧ !urlpkg.shouldEscape (Char.ofNat b) .encodePath then [Char.ofNat b]
  else urlpkg.escapeByte b

/-- The path text `escape(unescape(p, encodePath), encodePath)` for a text `p`
with valid escapes: each escape is decoded and each byte written anew. -/
def urlpkg.reescapePath : List Char → List Char
  | [] => []
  | c :: s =>
    if c = '%' then
      match s with
      | a :: b :: rest =>
        urlpkg.escapePathByte (urlpkg.unhex a * 16 + urlpkg.unhex b) ++ urlpkg.reescapePath rest
      | _ => []
    else ((urlpkg.utf8 c).map urlpkg.escapePathByte).flatten ++ urlpkg.reescapePath s

/-- The fields of `url.URL`.  `Path` and `Fragment` hold the text as written in
the URL; Go keeps their decoded form next to it and computes what is sent from
the two, which `EscapedPath` below computes from the text. -/
structure urlpkg.URL where
  Scheme : String
  Opaque : String
  User : Option String
  Host : String
  Path : String
  ForceQuery : Bool
  RawQuery : String
  Fragment : String
deriving DecidableEq, Repr

/-- The method `EscapedPath`: the path as it is sent.  A text that is a valid
encoding is sent as written, any other is decoded and encoded anew. -/
def urlpkg.URL.EscapedPath (u : urlpkg.URL) : String :=
  if u.Path = "%2A" then "*"
  else if urlpkg.validEncoded u.Path.toList .encodePath then u.Path
  else String.mk (urlpkg.reescapePath u.Path.toList)

/-- The method `RequestURI`: what the request line asks for. -/
def urlpkg.URL.RequestURI (u : urlpkg.URL) : String :=
  let result :=
    if u.Opaque = "" then
      (if u.EscapedPath = "" then "/" else u.EscapedPath)
    else if u.Opaque.toList.take 2 = ['/', '/'] then u.Scheme ++ ":" ++ u.Opaque
    else u.Opaque
  if u.ForceQuery ∨ u.RawQuery ≠ "" then result ++ "?" ++ u.RawQuery else result

/-- What this development leaves open of `net/url` and `net/http`. -/
structure Library where
  /-- The error `url.Parse` returns for a text it rejects. -/
  parseError : String → GoError
  /-- The error `http.NewRequest` returns for a method it rejects. -/
  methodError : String → GoError
  /-- The function `parseAuthority` on an authority that is not a plain host
  name with an optional port (one with user information, brackets, a percent
  sign or several colons): the user information and the host, or `none` when it
  is rejected. -/
  parseAuthority : String → Option (Option String × String)

/-- The library function `getScheme`, with `seen` the characters scanned so
far and `whole` the complete text: the scheme and what follows its colon, no
scheme and the whole text, or `none` for a text that starts with a colon. -/
def urlpkg.getScheme (whole : List Char) : List Char → List Char → Option (List Char × List Char)
  | _, [] => some ([], whole)
  | seen, c :: rest =>
    if ('a' ≤ c ∧ c ≤ 'z') ∨ ('A' ≤ c ∧ c ≤ 'Z') then urlpkg.getScheme whole (seen ++ [c]) rest
    else if ('0' ≤ c ∧ c ≤ '9') ∨ c = '+' ∨ c = '-' ∨ c = '.' then
      if seen = [] then some ([], whole) else urlpkg.getScheme whole (seen ++ [c]) rest
    else if c = ':' then
      if seen = [] then none else some (seen, rest)
    else some ([], whole)

/-- The library function `validOptionalPort`. -/
def urlpkg.validOptionalPort (port : List Char) : Bool :=
  match port with
  | [] => true
  | c :: digits => c = ':' && digits.all (fun b => '0' ≤ b ∧ b ≤ '9')

/-- The library function `parseAuthority`.  A plain host name with an optional
port is accepted when the port is numeric and no ASCII character needs an
escape in a host; any other authority is left to `lib`. -/
def urlpkg.parseAuthority (lib : Library) (authority : List Char) :
    Option (Option String × String) :=
  if authority.any (fun c => c = '@' ∨ c = '[' ∨ c = ']' ∨ c = '%') ∨
      1 < authority.count ':' then
    lib.parseAuthority (String.mk authority)
  else if !urlpkg.validOptionalPort ((strings.fromLast ':' authority).getD []) then none
  else if authority.any (fun c => c.toNat < 0x80 ∧ urlpkg.shouldEscape c .encodeHost) then none
  else some (none, String.mk authority)

/-- The library function `parse(rawURL, false)` on the text before the
fragment; `none` when the text is rejected. -/
def urlpkg.parse (lib : Library) (rawURL : List Char) : Option urlpkg.URL :=
  if rawURL.any (fun c => c.toNat < 0x20 ∨ c.toNat = 0x7f) then none
  else if rawURL = ['*'] then
    some { Scheme := "", Opaque := "", User := none, Host := "", Path := "*",
           ForceQuery := false, RawQuery := "", Fragment := "" }
  else
    match urlpkg.getScheme rawURL [] rawURL with
    | none => none
    | some (scheme, afterScheme) =>
      let scheme := scheme.map Char.toLower
      let forceQuery : Bool := afterScheme.getLast? = some '?' ∧ afterScheme.count '?' = 1
      let rest := if forceQuery then afterScheme.dropLast else (strings.Cut '?' afterScheme).1
      let rawQuery := if forceQuery then [] else ((strings.Cut '?' afterScheme).2).getD []
      if rest.head? ≠ some '/' ∧ scheme ≠ [] then
        some { Scheme := String.mk scheme, Opaque := String.mk rest, User := none, Host := "",
               Path := "", ForceQuery := forceQuery, RawQuery := String.mk rawQuery,
               Fragment := "" }
      else if rest.head? ≠ some '/' ∧ ':' ∈ (strings.Cut '/' rest).1 then none
      else if (scheme ≠ [] ∨ rest.take 3 ≠ ['/', '/', '/']) ∧ rest.take 2 = ['/', '/'] then
        let authority := (strings.Cut '/' (rest.drop 2)).1
        let path := (rest.drop 2).drop authority.length
        match urlpkg.parseAuthority lib authority with
        | none => none
        | some (user, host) =>
          if urlpkg.validEscapes path then
            some { Scheme := String.mk scheme, Opaque := "", User := user, Host := host,
                   Path := String.mk path, ForceQuery := forceQuery,
                   RawQuery := String.mk rawQuery, Fragment := "" }
          else none
      else if urlpkg.validEscapes rest then
        some { Scheme := String.mk scheme, Opaque := "", User := none, Host := "",
               Path := String.mk rest, ForceQuery := forceQuery,
               RawQuery := String.mk rawQuery, Fragment := "" }
      else none

/-- The library function `url.Parse`: the text is cut at the first `#`, what is
before it is parsed, and the fragment must have valid escapes. -/
def urlpkg.Parse (lib : Library) (rawURL : String) : Except GoError urlpkg.URL :=
  match urlpkg.parse lib (strings.Cut '#' rawURL.toList).1 with
  | none => .error (lib.parseError rawURL)
  | some u =>
    let frag := ((strings.Cut '#' rawURL.toList).2).getD []
    if urlpkg.validEscapes frag then .ok { u with Fragment := String.mk frag }
    else .error (lib.parseError rawURL)

/-! ## HTTP (`net/http`, `io/ioutil`) -/

/-- A response body stream (`resp.Body`): chunks of data ended by end-of-file or
by a read error. -/
inductive Reader where
  | EOF
  | data (chunk : String) (rest : Reader)
  | fail (err : GoError)
deriving DecidableEq, Repr

/-- The library function `ioutil.ReadAll`: reads until end-of-file or the first
error, returning what was read up to there and the error (`nil` at
end-of-file). -/
def ioutil.ReadAll : Reader → String × error
  | .EOF => ("", none)
  | .data chunk rest => (chunk ++ (ioutil.ReadAll rest).1, (ioutil.ReadAll rest).2)
  | .fail err => ("", some err)

/-- The fields of `http.Response` the program looks at. -/
structure Response where
  StatusCode : Int
  Body : Reader
deriving DecidableEq, Repr

/-- The fields of `http.Request` the program sets. -/
structure Request where
  Method : String
  URL : urlpkg.URL
  Header : List (String × String)
  Host : String
deriving DecidableEq, Repr

/-- What one call of `client.Do` returns: the response, or the error of the
transport. -/
structure Client where
  Do : Request → Except GoError Response

/-- A character allowed in a method name and in a header name (a token
character of HTTP). -/
def http.isTokenRune (c : Char) : Bool :=
  urlpkg.isAlnum c ||
    c ∈ ['!', '#', '$', '%', '&', Char.ofNat 39, '*', '+', '-', '.', '^', '_', Char.ofNat 96, '|', '~']

/-- The library function `removeEmptyPort`: a host ending in a colon loses it. -/
def http.removeEmptyPort (host : String) : String :=
  if host.toList.getLast? = some ':' then String.mk host.toList.dropLast else host

/-- The library function `http.NewRequest(method, url, nil)`. -/
def http.NewRequest (lib : Library) (method url : String) : Except GoError Request :=
  let method := if method = "" then "GET" else method
  if !method.toList.all http.isTokenRune then .error (lib.methodError method)
  else
    match urlpkg.Parse lib url with
    | .error err => .error err
    | .ok u =>
      let u := { u with Host := http.removeEmptyPort u.Host }
      .ok { Method := method, URL := u, Header := [], Host := u.Host }

/-- The canonical spelling of a header name made of token characters: upper
case at the start and after each dash, lower case elsewhere; `upper` tells
whether the next letter is to be in upper case. -/
def http.canonicalMIMEHeaderKey : Bool → List Char → List Char
  | _, [] => []
  | upper, c :: s =>
    let c := if upper then c.toUpper else c.toLower
    c :: http.canonicalMIMEHeaderKey (c = '-') s

/-- The library function `textproto.CanonicalMIMEHeaderKey`: a name with a
character that is no token character is left as it is. -/
def http.CanonicalMIMEHeaderKey (s : String) : String :=
  if s.toList.all http.isTokenRune then String.mk (http.canonicalMIMEHeaderKey true s.toList)
  else s

/-- The method `req.Header.Add(key, value)`. -/
def Request.HeaderAdd (req : Request) (key value : String) : Request :=
  { req with Header := req.Header ++ [(http.CanonicalMIMEHeaderKey key, value)] }

/-! ## The program -/

/-- Line 12. -/
def botName : String := "social-checker"

/-- Line 13. -/
def botVersion : String := "0.0.1"

/-- Line 14. -/
def userAgentName : String := Sprintf "%s-%s" [botName, botVersion]

/-- Line 16: `type availabilityChecker func(*http.Response) (bool, error)`. -/
abbrev availabilityChecker := Response → Bool × error

/-- Lines 18-22. -/
def isStatusCode (code : Int) : availabilityChecker :=
  fun resp => (decide (resp.StatusCode = code), none)

/-- Lines 24-32. -/
def bodyEquals (body : String) : availabilityChecker :=
  fun resp =>
    match ioutil.ReadAll resp.Body with
    | (_, some err) => (false, errors.Wrap (some err) "reading response body failed")
    | (bodyBytes, none) => (decide (bodyBytes = body), none)

/-- Lines 34-38. -/
structure website where
  name : String
  url : String
  isAvailableFunc : availabilityChecker

/-- Lines 42-59, for one call: `client` is what `client.Do` returns to this
call.  The deferred `resp.Body.Close()` has no effect on the result. -/
def website.isAvailable (lib : Library) (client : Client) (w : website) (username : String) :
    Bool × error :=
  let url := Sprintf w.url [username]
  match http.NewRequest lib "GET" url with
  | .error err => (false, errors.Wrap (some err) "creating request failed")
  | .ok req =>
    let req := req.HeaderAdd "User-agent" userAgentName
    match client.Do req with
    | .error err => (false, errors.Wrap (some err) "get request failed")
    | .ok resp =>
      match w.isAvailableFunc resp with
      | (_, some err) => (false, errors.Wrap (some err) "isAvailableFunc failed")
      | (isAvailable, none) => (isAvailable, none)

/-- Lines 61-65. -/
structure availableWebsiteResult where
  website : website
  isAvailable : Bool
  err : error

/-- Lines 72-79: the body of the goroutine started for entry `entry.1` of the
site list, the website `entry.2`, giving the result it sends on the channel. -/
def availableWebsites.send (lib : Library) (net : Nat → Client) (username : String)
    (entry : Nat × website) : availableWebsiteResult :=
  { website := entry.2
    isAvailable := (entry.2.isAvailable lib (net entry.1) username).1
    err := (entry.2.isAvailable lib (net entry.1) username).2 }

/-- Lines 81-92: what is left of the receive loop when `n` iterations remain,
`chan` holds the results still to arrive, in arrival order, and `available`
and `unavailable` are the lists built so far.  With an iteration left and
nothing to arrive the receive blocks for ever (`none`). -/
def availableWebsites.receive :
    Nat → List availableWebsiteResult → List website → List website →
      Option (Option (List website) × Option (List website) × error)
  | 0, _, available, unavailable => some (some available, some unavailable, none)
  | _ + 1, [], _, _ => none
  | n + 1, r :: chan, available, unavailable =>
    if r.err.isSome then
      some (none, none, errors.Wrap r.err "checking if website available failed")
    else if r.isAvailable then
      availableWebsites.receive n chan (available ++ [r.website]) unavailable
    else
      availableWebsites.receive n chan available (unavailable ++ [r.website])

/-- Lines 67-93.  One goroutine is started for each entry of `websites.enum`,
the websites with their indices; `order` lists these entries in the order in
which their goroutines deliver their results. -/
def availableWebsites (lib : Library) (net : Nat → Client) (username : String)
    (websites : List website) (order : List (Nat × website)) :
    Option (Option (List website) × Option (List website) × error) :=
  availableWebsites.receive websites.length
    (order.map (availableWebsites.send lib net username)) [] []

/-- What a run of the command leaves behind: the text written to standard
output and the exit code. -/
structure Process where
  stdout : String
  exitCode : Nat
deriving DecidableEq, Repr

/-- The library function `fmt.Println` on one operand: the text, then a
newline, added to standard output. -/
def Println (out : String) (line : String) : String :=
  out ++ line ++ "\n"

/-- Lines 96-122. -/
def main.websites : List website :=
  [ { name := "Twitch"
      url := "https://passport.twitch.tv/usernames/%s"
      isAvailableFunc := isStatusCode 204 },
    { name := "Twitter"
      url := "https://twitter.com/%s"
      isAvailableFunc := isStatusCode 404 },
    { name := "Instagram"
      url := "https://www.instagram.com/%s"
      isAvailableFunc := isStatusCode 404 },
    { name := "Reddit"
      url := "https://www.reddit.com/api/username_available.json?user=%s"
      isAvailableFunc := bodyEquals "true" },
    { name := "Subreddit"
      url := "https://www.reddit.com/r/%s"
      isAvailableFunc := isStatusCode 404 } ]

/-- Lines 126-138: what `main` does with the three values `availableWebsites`
returned.  The first value is bound to `_` and never used. -/
def main.report (outcome : Option (List website) × Option (List website) × error) : Process :=
  match outcome with
  | (_, _, some err) => { stdout := Println "" err.Error, exitCode := 1 }
  | (_, unavailable, none) =>
    if (unavailable.getD []).length = 0 then
      { stdout := Println "" "Available!", exitCode := 0 }
    else
      { stdout := (unavailable.getD []).foldl (fun out w => Println out ("- " ++ w.name))
          (Println "" "Unavailable on:")
        exitCode := 0 }

/-- Lines 95-139.  `Args` is `os.Args`; without a second entry the index
expression `os.Args[1]` panics, which ends the process with exit code 2 and
nothing on standard output. -/
def main (lib : Library) (net : Nat → Client) (Args : List String)
    (order : List (Nat × website)) : Option Process :=
  match Args with
  | _ :: username :: _ =>
    (availableWebsites lib net username main.websites order).map main.report
  | _ => some { stdout := "", exitCode := 2 }

/-! ## Sample sites and networks

Concrete inputs on which the theorems below are instantiated. -/

/-- A site available when it answers 200. -/
def siteA : website :=
  { name := "A", url := "https://a.test/%s", isAvailableFunc := isStatusCode 200 }

/-- A site available when it answers 404. -/
def siteB : website :=
  { name := "B", url := "https://b.test/%s", isAvailableFunc := isStatusCode 404 }

/-- A site available when it answers 200, at the address of `siteB`. -/
def siteB200 : website :=
  { name := "B", url := "https://b.test/%s", isAvailableFunc := isStatusCode 200 }

/-- A site available when its body is exactly `true`. -/
def siteR : website :=
  { name := "R", url := "https://r.test/%s", isAvailableFunc := bodyEquals "true" }

/-- A site with the username in the path. -/
def siteX : website :=
  { name := "X", url := "https://x.test/u/%s", isAvailableFunc := isStatusCode 200 }

/-- A library whose errors carry a short text and which rejects every authority
that is not a plain host name. -/
def sampleLib : Library :=
  { parseError := fun rawURL => .root ("parse " ++ rawURL)
    methodError := fun method => .root ("invalid method " ++ method)
    parseAuthority := fun _ => none }

/-- A network in which the host `a.test` answers 200 and every other host
answers 404, to every goroutine. -/
def net200And404 : Nat → Client :=
  fun _ =>
    { Do := fun req =>
        if req.Host = "a.test" then .ok { StatusCode := 200, Body := .EOF }
        else .ok { StatusCode := 404, Body := .EOF } }

/-- A network in which the host `a.test` answers 200 and every other connection
is refused. -/
def netRefused : Nat → Client :=
  fun _ =>
    { Do := fun req =>
        if req.Host = "a.test" then .ok { StatusCode := 200, Body := .EOF }
        else .error (.root "connection refused") }

/-- A network in which the request to `a.test` times out, and every other host
answers 200 with a body that breaks off after `tr`. -/
def netBroken : Nat → Client :=
  fun _ =>
    { Do := fun req =>
        if req.Host = "a.test" then .error (.root "timeout")
        else .ok { StatusCode := 200, Body := .data "tr" (.fail (.root "unexpected EOF")) } }

/-- A network in which every host answers 200 with the body `true`. -/
def netAll200 : Nat → Client :=
  fun _ => { Do := fun _ => .ok { StatusCode := 200, Body := .data "true" .EOF } }

/-- A network in which the goroutine of the first entry of the site list gets
the answer 200 and every other goroutine the answer 404, whatever they ask. -/
def netFirst200 : Nat → Client :=
  fun i =>
    { Do := fun _ =>
        if i = 0 then .ok { StatusCode := 200, Body := .EOF }
        else .ok { StatusCode := 404, Body := .EOF } }

/-- A network that answers 200 to the request line `/u/bob` on host `x.test`
and 404 to anything else. -/
def netBob : Nat → Client :=
  fun _ =>
    { Do := fun req =>
        if req.Host = "x.test" ∧ req.URL.RequestURI = "/u/bob" then
          .ok { StatusCode := 200, Body := .EOF }
        else .ok { StatusCode := 404, Body := .EOF } }

/-! ## The receive loop -/

theorem receive_all_ok (rs : List availableWebsiteResult) :
    ∀ (n : Nat) (available unavailable : List website),
      n = rs.length → (∀ r ∈ rs, r.err = none) →
      availableWebsites.receive n rs available unavailable =
        some (some (available ++ (rs.filter (fun r => r.isAvailable)).map (fun r => r.website)),
          some (unavailable ++ (rs.filter (fun r => !r.isAvailable)).map (fun r => r.website)),
          none) := by
  induction rs with
  | nil =>
    intro n available unavailable hn _
    subst hn
    simp [availableWebsites.receive]
  | cons r rs ih =>
    intro n available unavailable hn hok
    subst hn
    have hr : r.err = none := hok r (List.mem_cons_self _ _)
    have hrest : ∀ x ∈ rs, x.err = none := fun x hx => hok x (List.mem_cons_of_mem _ hx)
    cases hb : r.isAvailable with
    | true => simp [availableWebsites.receive, hr, hb, ih _ _ _ rfl hrest]
    | false => simp [availableWebsites.receive, hr, hb, ih _ _ _ rfl hrest]

theorem receive_first_err (pre : List availableWebsiteResult) :
    ∀ (n : Nat) (r : availableWebsiteResult) (post : List availableWebsiteResult)
      (available unavailable : List website),
      pre.length < n → (∀ x ∈ pre, x.err = none) → r.err.isSome = true →
      availableWebsites.receive n (pre ++ r :: post) available unavailable =
        some (none, none, errors.Wrap r.err "checking if website available failed") := by
  induction pre with
  | nil =>
    intro n r post available unavailable hn _ hr
    obtain ⟨m, rfl⟩ : ∃ m, n = m + 1 := ⟨n - 1, by simp at hn; omega⟩
    simp [availableWebsites.receive, hr]
  | cons x pre ih =>
    intro n r post available unavailable hn hok hr
    obtain ⟨m, rfl⟩ : ∃ m, n = m + 1 := ⟨n - 1, by simp at hn; omega⟩
    have hx : x.err = none := hok x (List.mem_cons_self _ _)
    have hrest : ∀ y ∈ pre, y.err = none := fun y hy => hok y (List.mem_cons_of_mem _ hy)
    have hm : pre.length < m := by simp at hn; omega
    cases hb : x.isAvailable with
    | true => simp [availableWebsites.receive, hx, hb, ih m r post _ _ hm hrest hr]
    | false => simp [availableWebsites.receive, hx, hb, ih m r post _ _ hm hrest hr]

theorem exists_first {α : Type} (P : α → Prop) (l : List α) (h : ∃ x ∈ l, P x) :
    ∃ pre x post, l = pre ++ x :: post ∧ (∀ y ∈ pre, ¬ P y) ∧ P x := by
  induction l with
  | nil => obtain ⟨x, hx, _⟩ := h; cases hx
  | cons a l ih =>
    by_cases ha : P a
    · exact ⟨[], a, l, rfl, by simp, ha⟩
    · have h2 : ∃ x ∈ l, P x := by
        obtain ⟨x, hx, hPx⟩ := h
        rcases List.mem_cons.mp hx with rfl | hx
        · exact absurd hPx ha
        · exact ⟨x, hx, hPx⟩
      obtain ⟨pre, x, post, hl, hpre, hx⟩ := ih h2
      refine ⟨a :: pre, x, post, by simp [hl], ?_, hx⟩
      intro y hy
      rcases List.mem_cons.mp hy with rfl | hy
      · exact ha
      · exact hpre y hy

theorem availableWebsites_all_ok (lib : Library) (net : Nat → Client) (username : String)
    (websites : List website) (order : List (Nat × website))
    (hlen : order.length = websites.length)
    (hok : ∀ p ∈ order, (p.2.isAvailable lib (net p.1) username).2 = none) :
    availableWebsites lib net username websites order =
      some (some ((order.filter (fun p => (p.2.isAvailable lib (net p.1) username).1)).map
          Prod.snd),
        some ((order.filter (fun p => !(p.2.isAvailable lib (net p.1) username).1)).map
          Prod.snd), none) := by
  unfold availableWebsites
  rw [receive_all_ok _ _ _ _ (by simp [hlen])]
  · simp [List.filter_map, List.map_map, Function.comp_def, availableWebsites.send]
  · intro r hr
    obtain ⟨p, hp, rfl⟩ := List.mem_map.mp hr
    exact hok p hp

theorem availableWebsites_first_err (lib : Library) (net : Nat → Client) (username : String)
    (websites : List website) (pre : List (Nat × website)) (p : Nat × website)
    (post : List (Nat × website)) (e : GoError)
    (hlen : pre.length < websites.length)
    (hpre : ∀ q ∈ pre, (q.2.isAvailable lib (net q.1) username).2 = none)
    (hp : (p.2.isAvailable lib (net p.1) username).2 = some e) :
    availableWebsites lib net username websites (pre ++ p :: post) =
      some (none, none,
        some (GoError.withMessage e "checking if website available failed")) := by
  unfold availableWebsites
  rw [List.map_append, List.map_cons, receive_first_err]
  · simp [availableWebsites.send, hp, errors.Wrap]
  · simpa using hlen
  · intro r hr
    obtain ⟨q, hq, rfl⟩ := List.mem_map.mp hr
    exact hpre q hq
  · simp [availableWebsites.send, hp]

theorem perm_map_snd_enum {order : List (Nat × website)} {websites : List website}
    (hperm : order.Perm websites.enum) : (order.map Prod.snd).Perm websites := by
  have h := hperm.map Prod.snd
  rwa [List.enum_map_snd] at h

theorem perm_enum_length {order : List (Nat × website)} {websites : List website}
    (hperm : order.Perm websites.enum) : order.length = websites.length := by
  rw [hperm.length_eq, List.enum_length]

/-! ## One site -/

theorem isAvailable_of_response (lib : Library) (client : Client) (w : website)
    (username : String) (req : Request) (resp : Response)
    (h1 : http.NewRequest lib "GET" (Sprintf w.url [username]) = .ok req)
    (h2 : client.Do (req.HeaderAdd "User-agent" userAgentName) = .ok resp) :
    w.isAvailable lib client username =
      match w.isAvailableFunc resp with
      | (_, some err) => (false, errors.Wrap (some err) "isAvailableFunc failed")
      | (isAvailable, none) => (isAvailable, none) := by
  simp only [website.isAvailable, h1, h2]

theorem isAvailable_of_ok (lib : Library) (client : Client) (w : website) (username : String)
    (h : (w.isAvailable lib client username).2 = none) :
    ∃ req resp, http.NewRequest lib "GET" (Sprintf w.url [username]) = .ok req ∧
      client.Do (req.HeaderAdd "User-agent" userAgentName) = .ok resp ∧
      w.isAvailableFunc resp = ((w.isAvailable lib client username).1, none) := by
  cases h1 : http.NewRequest lib "GET" (Sprintf w.url [username]) with
  | error err =>
    simp [website.isAvailable, h1, errors.Wrap] at h
  | ok req =>
    cases h2 : client.Do (req.HeaderAdd "User-agent" userAgentName) with
    | error err =>
      simp [website.isAvailable, h1, h2, errors.Wrap] at h
    | ok resp =>
      have h4 := isAvailable_of_response lib client w username req resp h1 h2
      rcases h3 : w.isAvailableFunc resp with ⟨b, _ | err⟩
      · rw [h3] at h4
        exact ⟨req, resp, rfl, h2, by rw [h4]; exact h3⟩
      · rw [h3] at h4
        rw [h4] at h
        simp [errors.Wrap] at h

theorem isAvailable_congr (lib : Library) (client1 client2 : Client) (w : website)
    (username : String)
    (hdo : ∀ req : Request, http.NewRequest lib "GET" (Sprintf w.url [username]) = .ok req →
      client1.Do (req.HeaderAdd "User-agent" userAgentName) =
        client2.Do (req.HeaderAdd "User-agent" userAgentName)) :
    w.isAvailable lib client1 username = w.isAvailable lib client2 username := by
  unfold website.isAvailable
  dsimp only
  cases h1 : http.NewRequest lib "GET" (Sprintf w.url [username]) with
  | error err => rfl
  | ok req =>
    dsimp only
    rw [hdo req h1]

theorem isAvailable_fails_iff (lib : Library) (client : Client) (w : website)
    (username : String) :
    (w.isAvailable lib client username).2 ≠ none ↔
      (∃ e, http.NewRequest lib "GET" (Sprintf w.url [username]) = .error e) ∨
      (∃ req e, http.NewRequest lib "GET" (Sprintf w.url [username]) = .ok req ∧
        client.Do (req.HeaderAdd "User-agent" userAgentName) = .error e) ∨
      (∃ req resp b e, http.NewRequest lib "GET" (Sprintf w.url [username]) = .ok req ∧
        client.Do (req.HeaderAdd "User-agent" userAgentName) = .ok resp ∧
        w.isAvailableFunc resp = (b, some e)) := by
  cases h1 : http.NewRequest lib "GET" (Sprintf w.url [username]) with
  | error err =>
    simp [website.isAvailable, h1, errors.Wrap]
  | ok req =>
    cases h2 : client.Do (req.HeaderAdd "User-agent" userAgentName) with
    | error err =>
      simp [website.isAvailable, h1, h2, errors.Wrap]
    | ok resp =>
      rw [isAvailable_of_response lib client w username req resp h1 h2]
      rcases h3 : w.isAvailableFunc resp with ⟨b, _ | err⟩
      · simp [h2, h3]
      · simp [h2, h3, errors.Wrap]

/-! ## The dispatcher -/

/-- C1 fails as stated: the site list holds the same site twice, the goroutine
of the first entry is answered 200 and that of the second 404, both checks
succeed, and the site is returned in the available list and in the unavailable
list. -/
theorem partition_counterexample :
    [(0, siteA), (1, siteA)].Perm [siteA, siteA].enum ∧
    siteA.isAvailable sampleLib (netFirst200 0) "bob" = (true, none) ∧
    siteA.isAvailable sampleLib (netFirst200 1) "bob" = (false, none) ∧
    availableWebsites sampleLib netFirst200 "bob" [siteA, siteA] [(0, siteA), (1, siteA)] =
      some (some [siteA], some [siteA], none) ∧
    siteA ∈ [siteA] ∧
    ¬ (∀ w, ¬ (w ∈ [siteA] ∧ w ∈ [siteA])) :=
  ⟨List.Perm.refl _, rfl, rfl, rfl, List.mem_singleton_self _,
    fun h => h siteA ⟨List.mem_singleton_self _, List.mem_singleton_self _⟩⟩

/-- C1, amended: when the completion order is a permutation of the entries of
the site list and every check succeeds, `availableWebsites` returns no error
and two lists; a site is in the input list iff it is in one of the two lists,
the two lists together are a permutation of the input list, and their lengths
add up to the number of input sites; when the sites of the input list are
pairwise distinct, no site is in both lists. -/
theorem availableWebsites_partition (lib : Library) (net : Nat → Client) (username : String)
    (websites : List website) (order : List (Nat × website))
    (hperm : order.Perm websites.enum)
    (hok : ∀ p ∈ websites.enum, (p.2.isAvailable lib (net p.1) username).2 = none) :
    ∃ available unavailable : List website,
      availableWebsites lib net username websites order =
        some (some available, some unavailable, none) ∧
      (∀ w, w ∈ websites ↔ w ∈ available ∨ w ∈ unavailable) ∧
      (available ++ unavailable).Perm websites ∧
      available.length + unavailable.length = websites.length ∧
      (websites.Nodup → ∀ w, ¬ (w ∈ available ∧ w ∈ unavailable)) := by
  have hok2 : ∀ p ∈ order, (p.2.isAvailable lib (net p.1) username).2 = none :=
    fun p hp => hok p (hperm.mem_iff.mp hp)
  have hsplit : ((order.filter (fun p => (p.2.isAvailable lib (net p.1) username).1)).map
      Prod.snd ++
      (order.filter (fun p => !(p.2.isAvailable lib (net p.1) username).1)).map
        Prod.snd).Perm websites := by
    rw [← List.map_append]
    exact ((List.filter_append_perm _ order).map Prod.snd).trans (perm_map_snd_enum hperm)
  refine ⟨_, _,
    availableWebsites_all_ok lib net username websites order (perm_enum_length hperm) hok2,
    ?_, hsplit, ?_, ?_⟩
  · intro w
    rw [← hsplit.mem_iff, List.mem_append]
  · rw [← List.length_append, hsplit.length_eq]
  · intro hnodup w hw
    have hnd := hsplit.nodup_iff.mpr hnodup
    exact (List.nodup_append.mp hnd).2.2 hw.1 hw.2

theorem siteA_ne_siteB200 : siteA ≠ siteB200 := by
  intro h
  have h2 := congrArg website.name h
  revert h2
  decide

/-- C1 amended, instantiated: two distinct sites, the second completing first;
the first answers 200 and is available, the second answers 404 where 200 was
asked for and is unavailable. -/
theorem availableWebsites_partition_witness :
    [(1, siteB200), (0, siteA)].Perm [siteA, siteB200].enum ∧
    (∀ p ∈ [siteA, siteB200].enum,
      (p.2.isAvailable sampleLib (net200And404 p.1) "bob").2 = none) ∧
    [siteA, siteB200].Nodup ∧
    availableWebsites sampleLib net200And404 "bob" [siteA, siteB200]
        [(1, siteB200), (0, siteA)] =
      some (some [siteA], some [siteB200], none) ∧
    ∃ available unavailable : List website,
      availableWebsites sampleLib net200And404 "bob" [siteA, siteB200]
          [(1, siteB200), (0, siteA)] =
        some (some available, some unavailable, none) ∧
      (∀ w, w ∈ [siteA, siteB200] ↔ w ∈ available ∨ w ∈ unavailable) ∧
      (available ++ unavailable).Perm [siteA, siteB200] ∧
      available.length + unavailable.length = [siteA, siteB200].length ∧
      ([siteA, siteB200].Nodup → ∀ w, ¬ (w ∈ available ∧ w ∈ unavailable)) :=
  have hok : ∀ p ∈ [siteA, siteB200].enum,
      (p.2.isAvailable sampleLib (net200And404 p.1) "bob").2 = none := by
    intro p hp
    simp only [List.enum_cons, List.enumFrom_cons, List.enumFrom_nil, List.mem_cons,
      List.mem_singleton, List.not_mem_nil, or_false] at hp
    rcases hp with rfl | rfl <;> rfl
  ⟨List.Perm.swap _ _ _, hok, by simp [siteA_ne_siteB200], rfl,
    availableWebsites_partition sampleLib net200And404 "bob" [siteA, siteB200]
      [(1, siteB200), (0, siteA)] (List.Perm.swap _ _ _) hok⟩

/-- C2: when the completion order is a permutation of the entries of the site
list, `availableWebsites` returns, and the error it returns is non-nil iff for
at least one entry the request cannot be built, the request fails, or the rule
fails; whenever the error is non-nil both returned lists are `nil`, however
many results had been received before. -/
theorem availableWebsites_failure_iff (lib : Library) (net : Nat → Client) (username : String)
    (websites : List website) (order : List (Nat × website))
    (hperm : order.Perm websites.enum) :
    ∃ (available unavailable : Option (List website)) (err : error),
      availableWebsites lib net username websites order = some (available, unavailable, err) ∧
      (err ≠ none ↔ ∃ p ∈ websites.enum,
        (∃ e, http.NewRequest lib "GET" (Sprintf p.2.url [username]) = .error e) ∨
        (∃ req e, http.NewRequest lib "GET" (Sprintf p.2.url [username]) = .ok req ∧
          (net p.1).Do (req.HeaderAdd "User-agent" userAgentName) = .error e) ∨
        (∃ req resp b e, http.NewRequest lib "GET" (Sprintf p.2.url [username]) = .ok req ∧
          (net p.1).Do (req.HeaderAdd "User-agent" userAgentName) = .ok resp ∧
          p.2.isAvailableFunc resp = (b, some e))) ∧
      (err ≠ none → available = none ∧ unavailable = none) := by
  simp only [← isAvailable_fails_iff]
  by_cases hfail : ∃ p ∈ order, (p.2.isAvailable lib (net p.1) username).2 ≠ none
  · obtain ⟨pre, p, post, hsplit, hpre, hp⟩ := exists_first _ order hfail
    obtain ⟨e, he⟩ := Option.ne_none_iff_exists'.mp hp
    have hlen : pre.length < websites.length := by
      rw [← perm_enum_length hperm, hsplit]
      simp
    refine ⟨none, none, some (GoError.withMessage e "checking if website available failed"),
      ?_, ?_, fun _ => ⟨rfl, rfl⟩⟩
    · rw [hsplit]
      exact availableWebsites_first_err lib net username websites pre p post e hlen
        (fun q hq => not_not.mp (hpre q hq)) he
    · constructor
      · intro _
        obtain ⟨q, hq, hq2⟩ := hfail
        exact ⟨q, hperm.mem_iff.mp hq, hq2⟩
      · intro _
        simp
  · have hok : ∀ p ∈ order, (p.2.isAvailable lib (net p.1) username).2 = none := by
      intro p hp
      by_contra h
      exact hfail ⟨p, hp, h⟩
    refine ⟨_, _, none,
      availableWebsites_all_ok lib net username websites order (perm_enum_length hperm) hok,
      ?_, ?_⟩
    · constructor
      · intro h
        exact absurd rfl h
      · rintro ⟨p, hp, hp2⟩
        exact absurd (hok p (hperm.mem_iff.mpr hp)) hp2
    · intro h
      exact absurd rfl h

/-- C2, instantiated: site A answers 200 and is received first, the request to
site B is refused; the outcome is the wrapped failure and no list. -/
theorem availableWebsites_failure_iff_witness :
    [(0, siteA), (1, siteB200)].Perm [siteA, siteB200].enum ∧
    (∃ (available unavailable : Option (List website)) (err : error),
      availableWebsites sampleLib netRefused "bob" [siteA, siteB200]
          [(0, siteA), (1, siteB200)] =
        some (available, unavailable, err) ∧
      (err ≠ none ↔ ∃ p ∈ [siteA, siteB200].enum,
        (∃ e, http.NewRequest sampleLib "GET" (Sprintf p.2.url ["bob"]) = .error e) ∨
        (∃ req e, http.NewRequest sampleLib "GET" (Sprintf p.2.url ["bob"]) = .ok req ∧
          (netRefused p.1).Do (req.HeaderAdd "User-agent" userAgentName) = .error e) ∨
        (∃ req resp b e, http.NewRequest sampleLib "GET" (Sprintf p.2.url ["bob"]) = .ok req ∧
          (netRefused p.1).Do (req.HeaderAdd "User-agent" userAgentName) = .ok resp ∧
          p.2.isAvailableFunc resp = (b, some e))) ∧
      (err ≠ none → available = none ∧ unavailable = none)) ∧
    siteA.isAvailable sampleLib (netRefused 0) "bob" = (true, none) ∧
    availableWebsites sampleLib netRefused "bob" [siteA, siteB200]
        [(0, siteA), (1, siteB200)] =
      some (none, none,
        some (.withMessage (.withMessage (.root "connection refused") "get request failed")
          "checking if website available failed")) :=
  ⟨List.Perm.refl _,
    availableWebsites_failure_iff sampleLib netRefused "bob" [siteA, siteB200]
      [(0, siteA), (1, siteB200)] (List.Perm.refl _),
    rfl, rfl⟩

/-- C3 fails as stated: with site A asking for 200 and answering 200, and site B
asking for 404 and answering 404, both rules hold, so both sites are returned
as available and none as unavailable. -/
theorem statusScenario_counterexample :
    (http.NewRequest sampleLib "GET" "https://a.test/bob").toOption.map
        (fun req => (net200And404 0).Do (req.HeaderAdd "User-agent" userAgentName)) =
      some (.ok { StatusCode := 200, Body := .EOF }) ∧
    (http.NewRequest sampleLib "GET" "https://b.test/bob").toOption.map
        (fun req => (net200And404 1).Do (req.HeaderAdd "User-agent" userAgentName)) =
      some (.ok { StatusCode := 404, Body := .EOF }) ∧
    siteA.isAvailable sampleLib (net200And404 0) "bob" = (true, none) ∧
    siteB.isAvailable sampleLib (net200And404 1) "bob" = (true, none) ∧
    availableWebsites sampleLib net200And404 "bob" [siteA, siteB] [(0, siteA), (1, siteB)] =
      some (some [siteA, siteB], some [], none) ∧
    availableWebsites sampleLib net200And404 "bob" [siteA, siteB] [(1, siteB), (0, siteA)] =
      some (some [siteB, siteA], some [], none) ∧
    availableWebsites sampleLib net200And404 "bob" [siteA, siteB] [(0, siteA), (1, siteB)] ≠
      some (some [siteA], some [siteB], none) ∧
    availableWebsites sampleLib net200And404 "bob" [siteA, siteB] [(1, siteB), (0, siteA)] ≠
      some (some [siteA], some [siteB], none) := by
  refine ⟨rfl, rfl, rfl, rfl, rfl, rfl, ?_, ?_⟩
  · intro h
    have h2 : availableWebsites sampleLib net200And404 "bob" [siteA, siteB]
        [(0, siteA), (1, siteB)] = some (some [siteA, siteB], some [], none) := rfl
    rw [h2] at h
    simp at h
  · intro h
    have h2 : availableWebsites sampleLib net200And404 "bob" [siteA, siteB]
        [(1, siteB), (0, siteA)] = some (some [siteB, siteA], some [], none) := rfl
    rw [h2] at h
    simp at h

/-- C3, amended: for a site A with rule `isStatusCode 200` that answers 200 and a
site B with rule `isStatusCode 404` that answers 404, in either completion
order, `availableWebsites` returns both sites as available, in completion
order, and an empty unavailable list. -/
theorem statusScenario_both_available (lib : Library) (net : Nat → Client) (username : String)
    (A B : website) (order : List (Nat × website)) (hperm : order.Perm [A, B].enum)
    (hruleA : A.isAvailableFunc = isStatusCode 200)
    (hruleB : B.isAvailableFunc = isStatusCode 404)
    (hA : ∃ req resp, http.NewRequest lib "GET" (Sprintf A.url [username]) = .ok req ∧
      (net 0).Do (req.HeaderAdd "User-agent" userAgentName) = .ok resp ∧
      resp.StatusCode = 200)
    (hB : ∃ req resp, http.NewRequest lib "GET" (Sprintf B.url [username]) = .ok req ∧
      (net 1).Do (req.HeaderAdd "User-agent" userAgentName) = .ok resp ∧
      resp.StatusCode = 404) :
    availableWebsites lib net username [A, B] order =
      some (some (order.map Prod.snd), some [], none) := by
  have hAv : A.isAvailable lib (net 0) username = (true, none) := by
    obtain ⟨req, resp, h1, h2, h3⟩ := hA
    simp [website.isAvailable, h1, h2, hruleA, isStatusCode, h3]
  have hBv : B.isAvailable lib (net 1) username = (true, none) := by
    obtain ⟨req, resp, h1, h2, h3⟩ := hB
    simp [website.isAvailable, h1, h2, hruleB, isStatusCode, h3]
  have hall : ∀ p ∈ order, p.2.isAvailable lib (net p.1) username = (true, none) := by
    intro p hp
    have := hperm.mem_iff.mp hp
    simp only [List.enum_cons, List.enumFrom_cons, List.enumFrom_nil, List.mem_cons,
      List.mem_singleton, List.not_mem_nil, or_false] at this
    rcases this with rfl | rfl
    · exact hAv
    · exact hBv
  rw [availableWebsites_all_ok lib net username [A, B] order (perm_enum_length hperm)
    (fun p hp => by rw [hall p hp])]
  have h1 : order.filter (fun p => (p.2.isAvailable lib (net p.1) username).1) = order :=
    List.filter_eq_self.mpr (fun p hp => by rw [hall p hp])
  have h2 : order.filter (fun p => !(p.2.isAvailable lib (net p.1) username).1) = [] :=
    List.filter_eq_nil_iff.mpr (fun p hp => by rw [hall p hp]; simp)
  rw [h1, h2]
  rfl

/-- C3 amended, instantiated on the sample sites with B completing first. -/
theorem statusScenario_both_available_witness :
    [(1, siteB), (0, siteA)].Perm [siteA, siteB].enum ∧
    availableWebsites sampleLib net200And404 "bob" [siteA, siteB] [(1, siteB), (0, siteA)] =
      some (some [siteB, siteA], some [], none) :=
  ⟨List.Perm.swap _ _ _,
    statusScenario_both_available sampleLib net200And404 "bob" siteA siteB
      [(1, siteB), (0, siteA)]
      (List.Perm.swap _ _ _) rfl rfl ⟨_, _, rfl, rfl, rfl⟩ ⟨_, _, rfl, rfl, rfl⟩⟩

/-! ## The rules -/

/-- C4: for every code and every response, `isStatusCode code` returns a nil
error and the boolean `resp.StatusCode == code`; the boolean is true iff the
status equals the code, and the result does not depend on the body. -/
theorem isStatusCode_spec (code : Int) (resp : Response) :
    isStatusCode code resp = (decide (resp.StatusCode = code), none) ∧
    ((isStatusCode code resp).1 = true ↔ resp.StatusCode = code) ∧
    (isStatusCode code resp).2 = none ∧
    ∀ body : Reader,
      isStatusCode code { StatusCode := resp.StatusCode, Body := body } =
        isStatusCode code resp := by
  refine ⟨rfl, ?_, rfl, fun _ => rfl⟩
  simp [isStatusCode]

/-- C5: for every text `T` and every response, if reading the body ends in an
error then `bodyEquals T` returns false and that error wrapped with the context
`reading response body failed`; otherwise it returns a nil error and the
boolean saying whether the whole body read equals `T`.  For `T` the text
`true`, the body `true` (also when it arrives in two chunks) gives true, and the
bodies `True`, `true` followed by a newline, `true` after a blank, and the empty
body give false. -/
theorem bodyEquals_spec (T : String) (resp : Response) :
    (∀ err, (ioutil.ReadAll resp.Body).2 = some err →
      bodyEquals T resp = (false, some (GoError.withMessage err "reading response body failed")) ∧
      ((bodyEquals T resp).2.map GoError.Error =
        some ("reading response body failed: " ++ err.Error))) ∧
    ((ioutil.ReadAll resp.Body).2 = none →
      bodyEquals T resp = (decide ((ioutil.ReadAll resp.Body).1 = T), none) ∧
      ((bodyEquals T resp).1 = true ↔ (ioutil.ReadAll resp.Body).1 = T)) ∧
    (∀ code : Int,
      bodyEquals "true" { StatusCode := code, Body := .data "true" .EOF } = (true, none) ∧
      bodyEquals "true" { StatusCode := code, Body := .data "tr" (.data "ue" .EOF) } =
        (true, none) ∧
      bodyEquals "true" { StatusCode := code, Body := .data "True" .EOF } = (false, none) ∧
      bodyEquals "true" { StatusCode := code, Body := .data "true\n" .EOF } = (false, none) ∧
      bodyEquals "true" { StatusCode := code, Body := .data " true" .EOF } = (false, none) ∧
      bodyEquals "true" { StatusCode := code, Body := .EOF } = (false, none)) := by
  refine ⟨?_, ?_, ?_⟩
  · intro err herr
    have h : ioutil.ReadAll resp.Body = ((ioutil.ReadAll resp.Body).1, some err) := by
      rw [← herr]
    have h2 : bodyEquals T resp =
        (false, some (GoError.withMessage err "reading response body failed")) := by
      unfold bodyEquals
      rw [h]
      rfl
    exact ⟨h2, by rw [h2]; rfl⟩
  · intro hnone
    have h : ioutil.ReadAll resp.Body = ((ioutil.ReadAll resp.Body).1, none) := by
      rw [← hnone]
    have h2 : bodyEquals T resp = (decide ((ioutil.ReadAll resp.Body).1 = T), none) := by
      unfold bodyEquals
      rw [h]
    exact ⟨h2, by rw [h2]; simp⟩
  · intro code
    refine ⟨rfl, rfl, ?_, ?_, ?_, ?_⟩ <;> simp [bodyEquals, ioutil.ReadAll]

/-- C5, instantiated: a body that breaks off after `tr` gives the wrapped read
error, a complete body `true` gives true. -/
theorem bodyEquals_spec_witness :
    bodyEquals "true"
        { StatusCode := 200, Body := .data "tr" (.fail (.root "unexpected EOF")) } =
      (false, some (.withMessage (.root "unexpected EOF") "reading response body failed")) ∧
    bodyEquals "true" { StatusCode := 200, Body := .data "true" .EOF } = (true, none) :=
  ⟨((bodyEquals_spec "true"
      { StatusCode := 200, Body := .data "tr" (.fail (.root "unexpected EOF")) }).1
      (.root "unexpected EOF") rfl).1,
    ((bodyEquals_spec "true" { StatusCode := 200, Body := .data "true" .EOF }).2.1 rfl).1⟩

/-! ## Failures -/

/-- C6: when the completion order is a permutation of the entries of the site
list and some check fails, the completion order splits into entries whose
checks succeed, then a first failing entry, then the rest, and the error
returned is the failure of that first failing entry wrapped once with the
context `checking if website available failed`, whatever the later entries
did.  When that failure came from the site's rule, the returned error is the
rule's error under the contexts `isAvailableFunc failed` and
`checking if website available failed`, and its text lists them in that
order before the cause. -/
theorem availableWebsites_first_failure (lib : Library) (net : Nat → Client)
    (username : String) (websites : List website) (order : List (Nat × website))
    (hperm : order.Perm websites.enum)
    (hfail : ∃ p ∈ websites.enum, (p.2.isAvailable lib (net p.1) username).2 ≠ none) :
    ∃ (pre : List (Nat × website)) (i : Nat) (w : website) (post : List (Nat × website))
        (e : GoError),
      order = pre ++ (i, w) :: post ∧
      (∀ q ∈ pre, (q.2.isAvailable lib (net q.1) username).2 = none) ∧
      (w.isAvailable lib (net i) username).2 = some e ∧
      availableWebsites lib net username websites order =
        some (none, none, some (GoError.withMessage e "checking if website available failed")) ∧
      (∀ req resp b cause,
        http.NewRequest lib "GET" (Sprintf w.url [username]) = .ok req →
        (net i).Do (req.HeaderAdd "User-agent" userAgentName) = .ok resp →
        w.isAvailableFunc resp = (b, some cause) →
        e = GoError.withMessage cause "isAvailableFunc failed" ∧
        (GoError.withMessage e "checking if website available failed").Error =
          "checking if website available failed: " ++
            ("isAvailableFunc failed: " ++ cause.Error)) := by
  have hfail2 : ∃ p ∈ order, (p.2.isAvailable lib (net p.1) username).2 ≠ none := by
    obtain ⟨p, hp, hp2⟩ := hfail
    exact ⟨p, hperm.mem_iff.mpr hp, hp2⟩
  obtain ⟨pre, ⟨i, w⟩, post, hsplit, hpre, hw⟩ := exists_first _ order hfail2
  obtain ⟨e, he⟩ := Option.ne_none_iff_exists'.mp hw
  have hlen : pre.length < websites.length := by
    rw [← perm_enum_length hperm, hsplit]
    simp
  have hpre2 : ∀ q ∈ pre, (q.2.isAvailable lib (net q.1) username).2 = none :=
    fun q hq => not_not.mp (hpre q hq)
  refine ⟨pre, i, w, post, e, hsplit, hpre2, he, ?_, ?_⟩
  · rw [hsplit]
    exact availableWebsites_first_err lib net username websites pre (i, w) post e hlen hpre2 he
  · intro req resp b cause h1 h2 h3
    have he2 : (w.isAvailable lib (net i) username).2 =
        some (GoError.withMessage cause "isAvailableFunc failed") := by
      simp [website.isAvailable, h1, h2, h3, errors.Wrap]
    simp only at he
    rw [he] at he2
    have he3 : e = GoError.withMessage cause "isAvailableFunc failed" := Option.some.inj he2
    refine ⟨he3, ?_⟩
    rw [he3]
    rfl

/-- C6, instantiated: sites A and R both fail, R completes first.  The error
returned is the failure of R (a rule failure: the body breaks off), not that of
A, the first failing site of the input list. -/
theorem availableWebsites_first_failure_witness :
    [(1, siteR), (0, siteA)].Perm [siteA, siteR].enum ∧
    (∃ p ∈ [siteA, siteR].enum, (p.2.isAvailable sampleLib (netBroken p.1) "bob").2 ≠ none) ∧
    (∃ (pre : List (Nat × website)) (i : Nat) (w : website) (post : List (Nat × website))
        (e : GoError),
      [(1, siteR), (0, siteA)] = pre ++ (i, w) :: post ∧
      (∀ q ∈ pre, (q.2.isAvailable sampleLib (netBroken q.1) "bob").2 = none) ∧
      (w.isAvailable sampleLib (netBroken i) "bob").2 = some e ∧
      availableWebsites sampleLib netBroken "bob" [siteA, siteR] [(1, siteR), (0, siteA)] =
        some (none, none, some (GoError.withMessage e "checking if website available failed")) ∧
      (∀ req resp b cause,
        http.NewRequest sampleLib "GET" (Sprintf w.url ["bob"]) = .ok req →
        (netBroken i).Do (req.HeaderAdd "User-agent" userAgentName) = .ok resp →
        w.isAvailableFunc resp = (b, some cause) →
        e = GoError.withMessage cause "isAvailableFunc failed" ∧
        (GoError.withMessage e "checking if website available failed").Error =
          "checking if website available failed: " ++
            ("isAvailableFunc failed: " ++ cause.Error))) ∧
    (siteA.isAvailable sampleLib (netBroken 0) "bob").2 =
      some (.withMessage (.root "timeout") "get request failed") ∧
    availableWebsites sampleLib netBroken "bob" [siteA, siteR] [(1, siteR), (0, siteA)] =
      some (none, none,
        some (.withMessage (.withMessage (.withMessage (.root "unexpected EOF")
          "reading response body failed") "isAvailableFunc failed")
          "checking if website available failed")) ∧
    availableWebsites sampleLib netBroken "bob" [siteA, siteR] [(0, siteA), (1, siteR)] =
      some (none, none,
        some (.withMessage (.withMessage (.root "timeout") "get request failed")
          "checking if website available failed")) :=
  have hfail : ∃ p ∈ [siteA, siteR].enum,
      (p.2.isAvailable sampleLib (netBroken p.1) "bob").2 ≠ none :=
    ⟨(0, siteA), List.mem_cons_self _ _, by
      have h : (siteA.isAvailable sampleLib (netBroken 0) "bob").2 =
          some (.withMessage (.root "timeout") "get request failed") := rfl
      rw [h]
      simp⟩
  ⟨List.Perm.swap _ _ _, hfail,
    availableWebsites_first_failure sampleLib netBroken "bob" [siteA, siteR]
      [(1, siteR), (0, siteA)] (List.Perm.swap _ _ _) hfail,
    rfl, rfl, rfl⟩

/-! ## Classification -/

/-- C7: two invocations on the same username and site list, over networks in
which every entry of the list gets the same answer to its request, with any
two completion orders and all checks succeeding: both return two lists, a site
is in the available list of the first iff it is in the available list of the
second, the same for the unavailable lists, and a site is in the available
list iff it is a site of the input list whose rule gives true on the response
it got. -/
theorem classification_deterministic (lib : Library) (net1 net2 : Nat → Client)
    (username : String) (websites : List website) (order1 order2 : List (Nat × website))
    (hperm1 : order1.Perm websites.enum) (hperm2 : order2.Perm websites.enum)
    (hdo : ∀ p ∈ websites.enum, ∀ req : Request,
      http.NewRequest lib "GET" (Sprintf p.2.url [username]) = .ok req →
      (net1 p.1).Do (req.HeaderAdd "User-agent" userAgentName) =
        (net2 p.1).Do (req.HeaderAdd "User-agent" userAgentName))
    (hok : ∀ p ∈ websites.enum, (p.2.isAvailable lib (net1 p.1) username).2 = none) :
    ∃ available1 unavailable1 available2 unavailable2 : List website,
      availableWebsites lib net1 username websites order1 =
        some (some available1, some unavailable1, none) ∧
      availableWebsites lib net2 username websites order2 =
        some (some available2, some unavailable2, none) ∧
      (∀ w, w ∈ available1 ↔ w ∈ available2) ∧
      (∀ w, w ∈ unavailable1 ↔ w ∈ unavailable2) ∧
      (∀ w, w ∈ available1 ↔ ∃ i, (i, w) ∈ websites.enum ∧
        ∃ req resp, http.NewRequest lib "GET" (Sprintf w.url [username]) = .ok req ∧
          (net1 i).Do (req.HeaderAdd "User-agent" userAgentName) = .ok resp ∧
          (w.isAvailableFunc resp).1 = true) := by
  have hsame : ∀ p ∈ websites.enum,
      p.2.isAvailable lib (net1 p.1) username = p.2.isAvailable lib (net2 p.1) username :=
    fun p hp => isAvailable_congr lib (net1 p.1) (net2 p.1) p.2 username (hdo p hp)
  have hok1 : ∀ p ∈ order1, (p.2.isAvailable lib (net1 p.1) username).2 = none :=
    fun p hp => hok p (hperm1.mem_iff.mp hp)
  have hok2 : ∀ p ∈ order2, (p.2.isAvailable lib (net2 p.1) username).2 = none := by
    intro p hp
    rw [← hsame p (hperm2.mem_iff.mp hp)]
    exact hok p (hperm2.mem_iff.mp hp)
  refine ⟨_, _, _, _,
    availableWebsites_all_ok lib net1 username websites order1 (perm_enum_length hperm1) hok1,
    availableWebsites_all_ok lib net2 username websites order2 (perm_enum_length hperm2) hok2,
    ?_, ?_, ?_⟩
  · intro w
    simp only [List.mem_map, List.mem_filter, hperm1.mem_iff, hperm2.mem_iff]
    constructor
    · rintro ⟨p, ⟨hp, hv⟩, rfl⟩
      exact ⟨p, ⟨hp, by rw [← hsame p hp]; exact hv⟩, rfl⟩
    · rintro ⟨p, ⟨hp, hv⟩, rfl⟩
      exact ⟨p, ⟨hp, by rw [hsame p hp]; exact hv⟩, rfl⟩
  · intro w
    simp only [List.mem_map, List.mem_filter, hperm1.mem_iff, hperm2.mem_iff]
    constructor
    · rintro ⟨p, ⟨hp, hv⟩, rfl⟩
      exact ⟨p, ⟨hp, by rw [← hsame p hp]; exact hv⟩, rfl⟩
    · rintro ⟨p, ⟨hp, hv⟩, rfl⟩
      exact ⟨p, ⟨hp, by rw [hsame p hp]; exact hv⟩, rfl⟩
  · intro w
    simp only [List.mem_map, List.mem_filter, hperm1.mem_iff]
    constructor
    · rintro ⟨⟨i, v⟩, ⟨hp, hv⟩, rfl⟩
      obtain ⟨req, resp, h1, h2, h3⟩ := isAvailable_of_ok lib (net1 i) v username (hok _ hp)
      exact ⟨i, hp, req, resp, h1, h2, by rw [h3]; exact hv⟩
    · rintro ⟨i, hp, req2, resp2, g1, g2, g3⟩
      obtain ⟨req, resp, h1, h2, h3⟩ := isAvailable_of_ok lib (net1 i) w username (hok _ hp)
      rw [h1] at g1
      cases g1
      rw [h2] at g2
      cases g2
      rw [h3] at g3
      exact ⟨(i, w), ⟨hp, g3⟩, rfl⟩

/-- C7, instantiated: the two sample sites, run twice over the same network with
opposite completion orders. -/
theorem classification_deterministic_witness :
    [(0, siteA), (1, siteB200)].Perm [siteA, siteB200].enum ∧
    [(1, siteB200), (0, siteA)].Perm [siteA, siteB200].enum ∧
    (∀ p ∈ [siteA, siteB200].enum,
      (p.2.isAvailable sampleLib (net200And404 p.1) "bob").2 = none) ∧
    ∃ available1 unavailable1 available2 unavailable2 : List website,
      availableWebsites sampleLib net200And404 "bob" [siteA, siteB200]
          [(0, siteA), (1, siteB200)] =
        some (some available1, some unavailable1, none) ∧
      availableWebsites sampleLib net200And404 "bob" [siteA, siteB200]
          [(1, siteB200), (0, siteA)] =
        some (some available2, some unavailable2, none) ∧
      (∀ w, w ∈ available1 ↔ w ∈ available2) ∧
      (∀ w, w ∈ unavailable1 ↔ w ∈ unavailable2) ∧
      (∀ w, w ∈ available1 ↔ ∃ i, (i, w) ∈ [siteA, siteB200].enum ∧
        ∃ req resp, http.NewRequest sampleLib "GET" (Sprintf w.url ["bob"]) = .ok req ∧
          (net200And404 i).Do (req.HeaderAdd "User-agent" userAgentName) = .ok resp ∧
          (w.isAvailableFunc resp).1 = true) :=
  have hok : ∀ p ∈ [siteA, siteB200].enum,
      (p.2.isAvailable sampleLib (net200And404 p.1) "bob").2 = none := by
    intro p hp
    simp only [List.enum_cons, List.enumFrom_cons, List.enumFrom_nil, List.mem_cons,
      List.mem_singleton, List.not_mem_nil, or_false] at hp
    rcases hp with rfl | rfl <;> rfl
  ⟨List.Perm.refl _, List.Perm.swap _ _ _, hok,
    classification_deterministic sampleLib net200And404 net200And404 "bob" [siteA, siteB200]
      [(0, siteA), (1, siteB200)] [(1, siteB200), (0, siteA)] (List.Perm.refl _)
      (List.Perm.swap _ _ _) (fun _ _ _ _ => rfl) hok⟩

/-! ## The requested URL -/

theorem doPrintf_cons_of_ne (c : Char) (hc : c ≠ '%') (fmt : List Char) (a : List String) :
    Sprintf.doPrintf (c :: fmt) a = c :: Sprintf.doPrintf fmt a := by
  cases fmt with
  | nil => simp [Sprintf.doPrintf, hc]
  | cons verb rest => simp [Sprintf.doPrintf, hc]

theorem doPrintf_literal (l : List Char) (hl : '%' ∉ l) (fmt : List Char) (a : List String) :
    Sprintf.doPrintf (l ++ fmt) a = l ++ Sprintf.doPrintf fmt a := by
  induction l with
  | nil => rfl
  | cons c l ih =>
    have hc : c ≠ '%' := fun h => hl (by simp [h])
    have hl2 : '%' ∉ l := fun h => hl (List.mem_cons_of_mem _ h)
    rw [List.cons_append, doPrintf_cons_of_ne c hc, ih hl2, List.cons_append]

theorem doPrintf_verb_s (u : String) (fmt : List Char) :
    Sprintf.doPrintf ('%' :: 's' :: fmt) [u] = u.toList ++ Sprintf.doPrintf fmt [] := by
  simp [Sprintf.doPrintf, Sprintf.printArg]

theorem Sprintf_one_placeholder (p s u : String)
    (hp : '%' ∉ p.toList) (hs : '%' ∉ s.toList) :
    Sprintf (p ++ "%s" ++ s) [u] = p ++ u ++ s := by
  have h1 : (p ++ "%s" ++ s).toList = p.toList ++ ('%' :: 's' :: s.toList) := by
    simp [String.toList]
  have h2 : Sprintf.doPrintf s.toList [] = s.toList := by
    have := doPrintf_literal s.toList hs [] []
    simpa [Sprintf.doPrintf, Sprintf.extra] using this
  unfold Sprintf
  rw [h1, doPrintf_literal _ hp, doPrintf_verb_s, h2]
  apply String.ext
  simp [String.toList]

theorem userAgentName_eq : userAgentName = "social-checker-0.0.1" := by decide

theorem NewRequest_fields (lib : Library) (url : String) (req : Request)
    (h : http.NewRequest lib "GET" url = .ok req) : req.Method = "GET" ∧ req.Header = [] := by
  unfold http.NewRequest at h
  have hm : (!("GET" : String).toList.all http.isTokenRune) = false := by decide
  simp only [show (("GET" : String) = "") = False from by decide, if_false, hm,
    Bool.false_eq_true] at h
  cases hp : urlpkg.Parse lib url with
  | error err => simp [hp] at h
  | ok u =>
    simp only [hp, Except.ok.injEq] at h
    subst h
    exact ⟨rfl, rfl⟩

theorem HeaderAdd_userAgent (req : Request) (h : req.Header = []) :
    req.HeaderAdd "User-agent" userAgentName =
      { req with Header := [("User-Agent", "social-checker-0.0.1")] } := by
  unfold Request.HeaderAdd
  rw [h, userAgentName_eq]
  have hk : http.CanonicalMIMEHeaderKey "User-agent" = "User-Agent" := by decide
  rw [hk]
  rfl

/-- C8 fails as stated: with the template `https://x.test/u/%s`, the username
`100%` makes `http.NewRequest` reject the URL, so that no request is made at
all; the username `a b` is requested as `/u/a%20b`, with the blank
percent-encoded; and of the username `bob#x` only `/u/bob` is requested. -/
theorem urlVerbatim_counterexample :
    Sprintf siteX.url ["100%"] = "https://x.test/u/100%" ∧
    (∀ (lib : Library) (client : Client),
      siteX.isAvailable lib client "100%" =
        (false, some (.withMessage (lib.parseError "https://x.test/u/100%")
          "creating request failed"))) ∧
    Sprintf siteX.url ["a b"] = "https://x.test/u/a b" ∧
    (∀ lib : Library,
      (http.NewRequest lib "GET" (Sprintf siteX.url ["a b"])).toOption.map
          (fun req => (req.URL.Scheme, req.Host, req.URL.RequestURI)) =
        some ("https", "x.test", "/u/a%20b")) ∧
    (∀ lib : Library,
      (http.NewRequest lib "GET" (Sprintf siteX.url ["bob#x"])).toOption.map
          (fun req => (req.URL.Scheme, req.Host, req.URL.RequestURI)) =
        some ("https", "x.test", "/u/bob")) ∧
    "/u/a%20b" ≠ "/u/a b" ∧ "/u/bob" ≠ "/u/bob#x" :=
  ⟨rfl, fun _ _ => rfl, rfl, fun _ => rfl, fun _ => rfl, by decide, by decide⟩

/-- C8, amended: for a URL template `p ++ "%s" ++ s` in which `p` and `s` hold no
percent sign, and any username `u`, the text `isAvailable` builds and hands to
`http.NewRequest` is `p ++ u ++ s`, the username unchanged whatever characters
it holds: the program escapes nothing.  What is requested is what
`http.NewRequest` makes of that text.  If it rejects the text, `isAvailable`
fails with the context `creating request failed` whatever the network would
answer.  If it builds a request, that request, with the header `User-Agent`
added, is the one sent, and the result of `isAvailable` is the failure of the
request, the failure of the rule, or the verdict of the rule on the
response. -/
theorem isAvailable_url_verbatim (p s u : String)
    (hp : '%' ∉ p.toList) (hs : '%' ∉ s.toList) :
    Sprintf (p ++ "%s" ++ s) [u] = p ++ u ++ s ∧
    ∀ (lib : Library) (client : Client) (w : website), w.url = p ++ "%s" ++ s →
      (∀ err, http.NewRequest lib "GET" (p ++ u ++ s) = .error err →
        w.isAvailable lib client u =
          (false, some (GoError.withMessage err "creating request failed"))) ∧
      (∀ req, http.NewRequest lib "GET" (p ++ u ++ s) = .ok req →
        req.Method = "GET" ∧ req.Header = [] ∧
        (∀ err,
          client.Do { req with Header := [("User-Agent", "social-checker-0.0.1")] } =
            .error err →
          w.isAvailable lib client u =
            (false, some (GoError.withMessage err "get request failed"))) ∧
        (∀ resp,
          client.Do { req with Header := [("User-Agent", "social-checker-0.0.1")] } =
            .ok resp →
          (∀ b, w.isAvailableFunc resp = (b, none) → w.isAvailable lib client u = (b, none)) ∧
          (∀ b cause, w.isAvailableFunc resp = (b, some cause) →
            w.isAvailable lib client u =
              (false, some (GoError.withMessage cause "isAvailableFunc failed"))))) := by
  have hurl := Sprintf_one_placeholder p s u hp hs
  refine ⟨hurl, ?_⟩
  intro lib client w hw
  have hwurl : Sprintf w.url [u] = p ++ u ++ s := by rw [hw, hurl]
  constructor
  · intro err herr
    simp [website.isAvailable, hwurl, herr, errors.Wrap]
  · intro req hreq
    obtain ⟨hm, hh⟩ := NewRequest_fields lib _ req hreq
    have hadd := HeaderAdd_userAgent req hh
    refine ⟨hm, hh, ?_, ?_⟩
    · intro err herr
      simp [website.isAvailable, hwurl, hreq, hadd, herr, errors.Wrap]
    · intro resp hresp
      have h4 := isAvailable_of_response lib client w u req resp (by rw [hwurl]; exact hreq)
        (by rw [hadd]; exact hresp)
      constructor
      · intro b hb
        rw [h4, hb]
      · intro b cause hb
        rw [h4, hb]
        rfl

/-- C8 amended, instantiated: `bob` into `https://x.test/u/%s` gives
`https://x.test/u/bob`, which is requested as `/u/bob` on the host `x.test`
and found available by the rule; a username made of URL-special characters is
copied unchanged into the text as well. -/
theorem isAvailable_url_verbatim_witness :
    '%' ∉ "https://x.test/u/".toList ∧ '%' ∉ "".toList ∧
    Sprintf "https://x.test/u/%s" ["bob"] = "https://x.test/u/bob" ∧
    Sprintf "https://x.test/u/%s" ["a/b?c#d&e f%20%"] = "https://x.test/u/a/b?c#d&e f%20%" ∧
    (http.NewRequest sampleLib "GET" "https://x.test/u/bob").toOption.map
        (fun req => (req.URL.Scheme, req.Host, req.URL.RequestURI)) =
      some ("https", "x.test", "/u/bob") ∧
    siteX.isAvailable sampleLib (netBob 0) "bob" = (true, none) :=
  ⟨by decide, by decide,
    (isAvailable_url_verbatim "https://x.test/u/" "" "bob" (by decide) (by decide)).1,
    (isAvailable_url_verbatim "https://x.test/u/" "" "a/b?c#d&e f%20%" (by decide)
      (by decide)).1,
    rfl,
    ((((isAvailable_url_verbatim "https://x.test/u/" "" "bob" (by decide) (by decide)).2
      sampleLib (netBob 0) siteX rfl).2
      { Method := "GET"
        URL := { Scheme := "https", Opaque := "", User := none, Host := "x.test",
                 Path := "/u/bob", ForceQuery := false, RawQuery := "", Fragment := "" }
        Header := []
        Host := "x.test" } rfl).2.2.2
      { StatusCode := 200, Body := .EOF } rfl).1 true rfl⟩

/-! ## The command -/

theorem foldl_Println_data (f : website → String) (l : List website) :
    ∀ out : String,
      (l.foldl (fun out w => Println out (f w)) out).data =
        out.data ++ (l.map (fun w => (f w ++ "\n").data)).flatten := by
  induction l with
  | nil =>
    intro out
    simp
  | cons w l ih =>
    intro out
    rw [List.foldl_cons, ih]
    simp [Println, List.append_assoc]

theorem foldl_Println (f : website → String) (l : List website) (out : String) :
    l.foldl (fun out w => Println out (f w)) out =
      out ++ String.join (l.map (fun w => f w ++ "\n")) := by
  apply String.ext
  rw [foldl_Println_data, String.join_eq]
  simp [List.map_map, Function.comp_def]

/-- C9: what `main` prints and its exit code depend only on what
`availableWebsites` returned.  A failure prints the error text on one line and
gives exit code 1; no failure and no unavailable site prints the one line
`Available!` and gives exit code 0, which is what happens for an empty site
list; otherwise `Unavailable on:` is printed, then one line `- name` for each
site of the unavailable list, in the order of that list, with exit code 0.  The
available list changes nothing. -/
theorem main_report_spec :
    (∀ (lib : Library) (net : Nat → Client) (prog username : String) (rest : List String)
        (order : List (Nat × website)),
      main lib net (prog :: username :: rest) order =
        (availableWebsites lib net username main.websites order).map main.report) ∧
    (∀ (available unavailable : Option (List website)) (err : GoError),
      main.report (available, unavailable, some err) =
        { stdout := err.Error ++ "\n", exitCode := 1 }) ∧
    (∀ available : Option (List website),
      main.report (available, some [], none) = { stdout := "Available!\n", exitCode := 0 } ∧
      main.report (available, none, none) = { stdout := "Available!\n", exitCode := 0 }) ∧
    (∀ (lib : Library) (net : Nat → Client) (username : String),
      (availableWebsites lib net username [] []).map main.report =
        some { stdout := "Available!\n", exitCode := 0 }) ∧
    (∀ (available : Option (List website)) (w : website) (ws : List website),
      main.report (available, some (w :: ws), none) =
        { stdout := "Unavailable on:\n" ++
            String.join ((w :: ws).map (fun v => "- " ++ v.name ++ "\n"))
          exitCode := 0 }) ∧
    main.report (some [siteR], some [siteA, siteB], none) =
      { stdout := "Unavailable on:\n- A\n- B\n", exitCode := 0 } ∧
    (∀ (available1 available2 unavailable : Option (List website)) (err : error),
      main.report (available1, unavailable, err) =
        main.report (available2, unavailable, err)) := by
  refine ⟨fun _ _ _ _ _ _ => rfl, ?_, fun _ => ⟨rfl, rfl⟩, fun _ _ _ => rfl, ?_, by decide, ?_⟩
  · intro available unavailable err
    simp [main.report, Println]
  · intro available w ws
    have h := foldl_Println (fun v => "- " ++ v.name) (w :: ws) (Println "" "Unavailable on:")
    simp only [main.report, Option.getD_some, List.length_cons, Nat.add_one_ne_zero,
      if_false, h]
    simp [Println]
  · intro available1 available2 unavailable err
    cases err <;> rfl

/-! ## Order of the returned lists -/

/-- C10 fails as stated: two sites that are both available, received in the two
possible orders, give two different available lists; received as B then A the
list is B, A, which is not the order of the input list. -/
theorem listOrder_counterexample :
    [(0, siteA), (1, siteB200)].Perm [siteA, siteB200].enum ∧
    [(1, siteB200), (0, siteA)].Perm [siteA, siteB200].enum ∧
    siteA.isAvailable sampleLib (netAll200 0) "bob" = (true, none) ∧
    siteB200.isAvailable sampleLib (netAll200 1) "bob" = (true, none) ∧
    availableWebsites sampleLib netAll200 "bob" [siteA, siteB200]
        [(0, siteA), (1, siteB200)] =
      some (some [siteA, siteB200], some [], none) ∧
    availableWebsites sampleLib netAll200 "bob" [siteA, siteB200]
        [(1, siteB200), (0, siteA)] =
      some (some [siteB200, siteA], some [], none) ∧
    [siteB200, siteA] ≠ [siteA, siteB200] ∧
    availableWebsites sampleLib netAll200 "bob" [siteA, siteB200]
        [(1, siteB200), (0, siteA)] ≠
      availableWebsites sampleLib netAll200 "bob" [siteA, siteB200]
        [(0, siteA), (1, siteB200)] := by
  have hne : [siteB200, siteA] ≠ [siteA, siteB200] := by
    intro h
    have h2 := congrArg (fun l => l.map website.name) h
    revert h2
    decide
  refine ⟨List.Perm.refl _, List.Perm.swap _ _ _, rfl, rfl, rfl, rfl, hne, ?_⟩
  intro h
  have h1 : availableWebsites sampleLib netAll200 "bob" [siteA, siteB200]
      [(0, siteA), (1, siteB200)] = some (some [siteA, siteB200], some [], none) := rfl
  have h2 : availableWebsites sampleLib netAll200 "bob" [siteA, siteB200]
      [(1, siteB200), (0, siteA)] = some (some [siteB200, siteA], some [], none) := rfl
  rw [h1, h2] at h
  simp only [Option.some.injEq, Prod.mk.injEq, and_true] at h
  exact hne h

/-- C10, amended: when the completion orders are permutations of the entries of
the site list and all checks succeed, each returned list holds its sites in
completion order: the available list is the completion order restricted to the
entries whose check gave true, the unavailable list the completion order
restricted to the others.  For two completion orders the available lists are
permutations of each other and of the available sites of the input list, the
same for the unavailable lists, and the lists are equal when the completion
orders are. -/
theorem availableWebsites_completion_order (lib : Library) (net : Nat → Client)
    (username : String) (websites : List website) (order1 order2 : List (Nat × website))
    (hperm1 : order1.Perm websites.enum) (hperm2 : order2.Perm websites.enum)
    (hok : ∀ p ∈ websites.enum, (p.2.isAvailable lib (net p.1) username).2 = none) :
    availableWebsites lib net username websites order1 =
      some (some ((order1.filter (fun p => (p.2.isAvailable lib (net p.1) username).1)).map
          Prod.snd),
        some ((order1.filter (fun p => !(p.2.isAvailable lib (net p.1) username).1)).map
          Prod.snd), none) ∧
    availableWebsites lib net username websites order2 =
      some (some ((order2.filter (fun p => (p.2.isAvailable lib (net p.1) username).1)).map
          Prod.snd),
        some ((order2.filter (fun p => !(p.2.isAvailable lib (net p.1) username).1)).map
          Prod.snd), none) ∧
    ((order1.filter (fun p => (p.2.isAvailable lib (net p.1) username).1)).map Prod.snd).Perm
      ((order2.filter (fun p => (p.2.isAvailable lib (net p.1) username).1)).map Prod.snd) ∧
    ((order1.filter (fun p => !(p.2.isAvailable lib (net p.1) username).1)).map Prod.snd).Perm
      ((order2.filter (fun p => !(p.2.isAvailable lib (net p.1) username).1)).map Prod.snd) ∧
    ((order1.filter (fun p => (p.2.isAvailable lib (net p.1) username).1)).map Prod.snd).Perm
      ((websites.enum.filter (fun p => (p.2.isAvailable lib (net p.1) username).1)).map
        Prod.snd) ∧
    ((order1.filter (fun p => !(p.2.isAvailable lib (net p.1) username).1)).map Prod.snd).Perm
      ((websites.enum.filter (fun p => !(p.2.isAvailable lib (net p.1) username).1)).map
        Prod.snd) ∧
    (order1 = order2 →
      availableWebsites lib net username websites order1 =
        availableWebsites lib net username websites order2) := by
  have h12 : order1.Perm order2 := hperm1.trans hperm2.symm
  refine ⟨?_, ?_, (h12.filter _).map _, (h12.filter _).map _, (hperm1.filter _).map _,
    (hperm1.filter _).map _, ?_⟩
  · exact availableWebsites_all_ok lib net username websites order1 (perm_enum_length hperm1)
      (fun p hp => hok p (hperm1.mem_iff.mp hp))
  · exact availableWebsites_all_ok lib net username websites order2 (perm_enum_length hperm2)
      (fun p hp => hok p (hperm2.mem_iff.mp hp))
  · intro h
    rw [h]

/-- C10 amended, instantiated: the two available sample sites, received as A then
B and as B then A. -/
theorem availableWebsites_completion_order_witness :
    [(0, siteA), (1, siteB200)].Perm [siteA, siteB200].enum ∧
    [(1, siteB200), (0, siteA)].Perm [siteA, siteB200].enum ∧
    (∀ p ∈ [siteA, siteB200].enum,
      (p.2.isAvailable sampleLib (netAll200 p.1) "bob").2 = none) ∧
    availableWebsites sampleLib netAll200 "bob" [siteA, siteB200]
        [(1, siteB200), (0, siteA)] =
      some (some [siteB200, siteA], some [], none) ∧
    List.Perm [siteA, siteB200] [siteB200, siteA] :=
  have hok : ∀ p ∈ [siteA, siteB200].enum,
      (p.2.isAvailable sampleLib (netAll200 p.1) "bob").2 = none := by
    intro p hp
    simp only [List.enum_cons, List.enumFrom_cons, List.enumFrom_nil, List.mem_cons,
      List.mem_singleton, List.not_mem_nil, or_false] at hp
    rcases hp with rfl | rfl <;> rfl
  have h := availableWebsites_completion_order sampleLib netAll200 "bob" [siteA, siteB200]
    [(0, siteA), (1, siteB200)] [(1, siteB200), (0, siteA)] (List.Perm.refl _)
    (List.Perm.swap _ _ _) hok
  ⟨List.Perm.refl _, List.Perm.swap _ _ _, hok, h.2.1, h.2.2.1⟩

end SocialChecker
